import Mathlib

-- Verification of the rule-based code transformer (lib/transformer):
-- mixed-language detection, normalization, per-line rule substitution,
-- post-processing and the transformation orchestrator, embedded as
-- executable functions over lists of characters.  Strings are modelled as
-- `List Char`; JavaScript regular-expression passes are modelled by
-- dedicated scanners that reproduce the leftmost-match, lazy/greedy and
-- anchor semantics of each concrete pattern appearing in the source.

set_option maxRecDepth 20000

namespace CodeTranslator

/-- Source strings are modelled as lists of characters. -/
abbrev Str := List Char

/-- Coerce a Lean string literal to the `Str` model. -/
def str (s : String) : Str := s.data

/-- Opening brace character (written numerically). -/
def obrace : Char := Char.ofNat 123

/-- Closing brace character (written numerically). -/
def cbrace : Char := Char.ofNat 125

/-- Single-quote character. -/
def squote : Char := Char.ofNat 39

/-- The JavaScript `\s` / `trim` whitespace class, restricted to ASCII. -/
def isJsWs (c : Char) : Bool :=
  c = ' ' || c = '\t' || c = '\n' || c = '\r' || c = '\x0b' || c = '\x0c'

/-- The JavaScript `\w` word-character class. -/
def isWordChar (c : Char) : Bool :=
  ('a' ≤ c && c ≤ 'z') || ('A' ≤ c && c ≤ 'Z') || ('0' ≤ c && c ≤ '9') || c = '_'

/-- Lowercase ASCII letter test, the `[a-z]` class. -/
def isLowerAlpha (c : Char) : Bool :=
  'a' ≤ c && c ≤ 'z'

/-- Model of `text.split('\n')` of JavaScript: always returns at least one piece. -/
def splitNL : Str → List Str
  | [] => [[]]
  | c :: rest =>
    if c = '\n' then [] :: splitNL rest
    else
      match splitNL rest with
      | [] => [[c]]
      | h :: t => (c :: h) :: t

/-- Model of `lines.join('\n')` of JavaScript. -/
def joinNL : List Str → Str
  | [] => []
  | [x] => x
  | x :: xs => x ++ '\n' :: joinNL xs

/-- Model of `s.trimStart()`. -/
def trimStart (l : Str) : Str := l.dropWhile isJsWs

/-- Model of `s.trimEnd()`. -/
def trimEnd (l : Str) : Str := (l.reverse.dropWhile isJsWs).reverse

/-- Model of `s.trim()`. -/
def trim (l : Str) : Str := trimEnd (trimStart l)

/-- Model of `s.includes(p)` for a pattern with no newline semantics: substring test. -/
def containsSub (p : Str) : Str → Bool
  | [] => p.isPrefixOf ([] : Str)
  | c :: rest => p.isPrefixOf (c :: rest) || containsSub p rest

/-- Model of `s.startsWith(p)`. -/
def startsWith (p l : Str) : Bool := p.isPrefixOf l

/-- Model of `s.endsWith(p)`. -/
def endsWith (p l : Str) : Bool := p.isSuffixOf l

/-- Model of `s.toLowerCase()` (ASCII). -/
def lowerStr (l : Str) : Str := l.map Char.toLower

/-- Number of occurrences of a character, `(s.match(/c/g) || []).length`. -/
def countChar (c : Char) (l : Str) : Nat := l.count c

/-- Generic model of `String.replace` with a global regex: `try?` inspects
the character preceding the current position (`none` at the start of the
string) and the remaining text; on a match it yields the replacement text,
the remaining suffix after the consumed segment, and the last consumed
character.  On failure one character is copied.  Fuel bounds the recursion;
every match consumes at least one character, so fuel equal to the length of
the text never runs out. -/
def scanP (try? : Option Char → Str → Option (Str × Str × Char)) :
    Nat → Option Char → Str → Str
  | 0, _, l => l
  | _ + 1, _, [] => []
  | n + 1, prev, c :: rest =>
    match try? prev (c :: rest) with
    | some (out, rest', lc) => out ++ scanP try? n (some lc) rest'
    | none => c :: scanP try? n (some c) rest

/-- Run a global-replace scanner over a whole string. -/
def runScan (try? : Option Char → Str → Option (Str × Str × Char)) (l : Str) : Str :=
  scanP try? l.length none l

/-- Whether the current position is at the start of a line (the `^` anchor
with the `m` flag): the start of the string or just after a newline. -/
def atLineStart : Option Char → Bool
  | none => true
  | some c => c = '\n'

/-- Whether the previous character is a word character (for `\b`). -/
def prevIsWord : Option Char → Bool
  | none => false
  | some c => isWordChar c

/-- Last element of a nonempty consumed segment, with a default. -/
def lastCharD (l : Str) (d : Char) : Char := l.getLast?.getD d

/-- Does this suffix match `\s*$` in multiline mode: only whitespace up to
the end of the string or up to some newline? -/
def wsThenEOL : Str → Bool
  | [] => true
  | c :: rest => if c = '\n' then true else if isJsWs c then wsThenEOL rest else false

/-- Does any suffix of the text satisfy the test (an unanchored regex)? -/
def anySuffix (test : Str → Bool) : Str → Bool
  | [] => test []
  | c :: rest => test (c :: rest) || anySuffix test rest

/-- Test for patterns of shape `kw\s+` anywhere in the text. -/
def hasKwThenWs (kw : Str) (l : Str) : Bool :=
  anySuffix (fun s => kw.isPrefixOf s && (match s.drop kw.length with
    | [] => false
    | c :: _ => isJsWs c)) l

/-- Test for patterns of shape `a\s+b` anywhere in the text (at least one
whitespace character between the two literals). -/
def hasKwWsKw (a b : Str) (l : Str) : Bool :=
  anySuffix (fun s => a.isPrefixOf s &&
    (let r := s.drop a.length
     let w := r.takeWhile isJsWs
     decide (w ≠ []) && b.isPrefixOf (r.dropWhile isJsWs))) l

/-- Test for `c` followed by `\s*$` (multiline) anywhere in the text. -/
def hasCharThenEOL (c : Char) (l : Str) : Bool :=
  anySuffix (fun s => match s with
    | [] => false
    | d :: rest => d = c && wsThenEOL rest) l

/-- Test for `c` immediately before a newline or the end (`c$`, multiline). -/
def hasCharAtEOL (c : Char) (l : Str) : Bool :=
  anySuffix (fun s => match s with
    | [] => false
    | d :: rest => d = c && (match rest with
      | [] => true
      | e :: _ => e = '\n')) l

/-- Test for `^\s+[a-z]` (no `m` flag): the string starts with whitespace
and the first non-whitespace character is a lowercase letter. -/
def startsWsLower (l : Str) : Bool :=
  match l with
  | [] => false
  | c :: _ =>
    isJsWs c && (match l.dropWhile isJsWs with
      | [] => false
      | d :: _ => isLowerAlpha d)

/-- The five Python fingerprint indicators of `detectMixedLanguages`. -/
def pyScore (code : Str) : Nat :=
  (if startsWith (str ("def")) code &&
      (match code.drop 3 with | [] => false | c :: _ => isJsWs c) then 1 else 0) +
  (if startsWith (str ("import")) code &&
      (match code.drop 6 with | [] => false | c :: _ => isJsWs c) then 1 else 0) +
  (if startsWsLower code then 1 else 0) +
  (if containsSub (str ("print(")) code then 1 else 0) +
  (if hasCharThenEOL ':' code then 1 else 0)

/-- The five JavaScript fingerprint indicators of `detectMixedLanguages`. -/
def jsScore (code : Str) : Nat :=
  (if hasKwThenWs (str ("function")) code then 1 else 0) +
  (if hasKwThenWs (str ("const")) code then 1 else 0) +
  (if hasKwThenWs (str ("let")) code then 1 else 0) +
  (if containsSub (str ("console.log")) code then 1 else 0) +
  (if hasCharThenEOL obrace code then 1 else 0)

/-- The three Java fingerprint indicators of `detectMixedLanguages`. -/
def javaScore (code : Str) : Nat :=
  (if hasKwWsKw (str ("public")) (str ("class")) code then 1 else 0) +
  (if hasKwWsKw (str ("public")) (str ("static")) code then 1 else 0) +
  (if hasCharAtEOL ';' code then 1 else 0)

/-- The mixed-language detection report. -/
structure MixedReport where
  detected : Bool
  languages : List Str
  confidence : ℚ
  deriving Repr, DecidableEq

/-- Stable descending insertion by score (ties keep insertion order),
modelling `entries.sort(([, a], [, b]) => b - a)`. -/
def insDesc (x : Str × Nat) : List (Str × Nat) → List (Str × Nat)
  | [] => [x]
  | y :: ys => if y.2 < x.2 then x :: y :: ys else y :: insDesc x ys

/-- Stable descending sort by score. -/
def sortDesc : List (Str × Nat) → List (Str × Nat)
  | [] => []
  | x :: xs => insDesc x (sortDesc xs)

/-- Embeds `detectMixedLanguages`: score the three fingerprinted languages, flag
"detected" when more than one language has a nonzero score, list the
nonzero-score languages by descending score. -/
def detectMixedLanguages (code : Str) : MixedReport :=
  let p := pyScore code
  let j := jsScore code
  let a := javaScore code
  let entries := [(str ("python"), p), (str ("javascript"), j), (str ("java"), a)]
  let detected := decide (1 < ((([p, j, a]).filter (fun v => decide (0 < v))).length))
  { detected := detected
    languages := (sortDesc (entries.filter (fun e => decide (0 < e.2)))).map (·.1)
    confidence := if detected then (7 : ℚ) / 10 else 1 }

/-- Step for `\r\n` → `\n` (global). -/
def tryCRLF (_prev : Option Char) (l : Str) : Option (Str × Str × Char) :=
  if (str ("\r\n")).isPrefixOf l then some ([ '\n' ], l.drop 2, '\n') else none

/-- Step for `(\w)\s+{` → `$1 {` (global): a word character, at least one whitespace
character, then an opening brace. -/
def tryWsBrace (_prev : Option Char) (l : Str) : Option (Str × Str × Char) :=
  match l with
  | [] => none
  | c :: rest =>
    if isWordChar c then
      let w := rest.takeWhile isJsWs
      if w = [] then none
      else
        match rest.dropWhile isJsWs with
        | d :: tail => if d = obrace then some ([c, ' ', obrace], tail, obrace) else none
        | [] => none
    else none

/-- Step for `,\s+` → `, ` (global). -/
def tryCommaWs (_prev : Option Char) (l : Str) : Option (Str × Str × Char) :=
  match l with
  | [] => none
  | c :: rest =>
    if c = ',' then
      let w := rest.takeWhile isJsWs
      if w = [] then none
      else some ([',', ' '], rest.dropWhile isJsWs, lastCharD w ' ')
    else none

/-- Step for `\s+;` → `;` (global). -/
def tryWsSemi (_prev : Option Char) (l : Str) : Option (Str × Str × Char) :=
  match l with
  | [] => none
  | c :: _ =>
    if isJsWs c then
      match l.dropWhile isJsWs with
      | d :: tail => if d = ';' then some ([';'], tail, ';') else none
      | [] => none
    else none

/-- Embeds `preprocessCode`: line-ending normalization, per-line `trimEnd`, and the
three spacing fixes, in source order. -/
def preprocessCode (code : Str) : Str × List Str :=
  let p1 := runScan tryCRLF code
  let p2 := joinNL ((splitNL p1).map trimEnd)
  let p3 := runScan tryWsBrace p2
  let p4 := runScan tryCommaWs p3
  let p5 := runScan tryWsSemi p4
  (p5, [])

/-- First keyword of the alternation that is a prefix of the text (none of
the keywords is a prefix of another, so at most one can match). -/
def firstKw : List Str → Str → Option Str
  | [], _ => none
  | k :: ks, l => if k.isPrefixOf l then some k else firstKw ks l

/-- Keyword alternation of the missing-colon auto-correction. -/
def colonKws : List Str :=
  [str ("if"), str ("elif"), str ("else"), str ("for"), str ("while"),
   str ("def"), str ("class"), str ("try"), str ("except"), str ("finally"),
   str ("with")]

/-- Keyword alternation of the missing-brace auto-correction. -/
def braceKws : List Str :=
  [str ("function"), str ("if"), str ("else"), str ("for"), str ("while"),
   str ("class"), str ("try"), str ("catch"), str ("finally")]

/-- Step for `^\s*elif\s+` → `else if ` (global, multiline). -/
def tryElif (prev : Option Char) (l : Str) : Option (Str × Str × Char) :=
  if atLineStart prev then
    let r1 := l.dropWhile isJsWs
    if (str ("elif")).isPrefixOf r1 then
      let r2 := r1.drop 4
      let w2 := r2.takeWhile isJsWs
      if w2 = [] then none
      else some (str ("else if "), r2.dropWhile isJsWs, lastCharD w2 ' ')
    else none
  else none

/-- Step for `^(\s*(?:if|elif|else|for|while|def|class|try|except|finally|with).+?)(\n)`
with the missing-colon replacer (global, multiline). -/
def tryColonFix (prev : Option Char) (l : Str) : Option (Str × Str × Char) :=
  if atLineStart prev then
    let w := l.takeWhile isJsWs
    let r1 := l.dropWhile isJsWs
    match firstKw colonKws r1 with
    | none => none
    | some kw =>
      let r2 := r1.drop kw.length
      let body := r2.takeWhile (fun c => decide (c ≠ '\n'))
      if body = [] then none
      else
        match r2.dropWhile (fun c => decide (c ≠ '\n')) with
        | '\n' :: tail =>
          let content := w ++ kw ++ body
          let ct := trim content
          let out :=
            if ¬ endsWith [':'] ct && ¬ endsWith [obrace] ct &&
               ¬ endsWith (str ("else")) ct
            then content ++ [':', '\n'] else content ++ ['\n']
          some (out, tail, '\n')
        | _ => none
  else none

/-- Step for `^(\s*(?:function|if|else|for|while|class|try|catch|finally).+?)(\n(?!\s*{))`
with the missing-brace replacer (global, multiline). -/
def tryBraceFix (prev : Option Char) (l : Str) : Option (Str × Str × Char) :=
  if atLineStart prev then
    let w := l.takeWhile isJsWs
    let r1 := l.dropWhile isJsWs
    match firstKw braceKws r1 with
    | none => none
    | some kw =>
      let r2 := r1.drop kw.length
      let body := r2.takeWhile (fun c => decide (c ≠ '\n'))
      if body = [] then none
      else
        match r2.dropWhile (fun c => decide (c ≠ '\n')) with
        | '\n' :: tail =>
          match tail.dropWhile isJsWs with
          | d :: _ => if d = obrace then none else
              let content := w ++ kw ++ body
              let ct := trim content
              let out :=
                if ¬ endsWith [obrace] ct && ¬ endsWith (str ("else")) ct
                then content ++ [' ', obrace, '\n'] else content ++ ['\n']
              some (out, tail, '\n')
          | [] =>
              let content := w ++ kw ++ body
              let ct := trim content
              let out :=
                if ¬ endsWith [obrace] ct && ¬ endsWith (str ("else")) ct
                then content ++ [' ', obrace, '\n'] else content ++ ['\n']
              some (out, tail, '\n')
        | _ => none
  else none

/-- Per-line quote unification: `(?<!\\)'` → `"`, original previous
character driving the lookbehind. -/
def quoteGo : Option Char → Str → Str
  | _, [] => []
  | prev, c :: rest =>
    (if c = squote && prev ≠ some '\\' then '"' else c) :: quoteGo (some c) rest

/-- One line of the quote-unification pass: comment lines are untouched. -/
def quoteLine (line : Str) : Str :=
  let t := trim line
  if startsWith (str ("//")) t || startsWith (str ("#")) t ||
     startsWith (str ("/*")) t then line
  else quoteGo none line

/-- Step for `;;+` → `;` (global). -/
def trySemiRun (_prev : Option Char) (l : Str) : Option (Str × Str × Char) :=
  match l with
  | ';' :: ';' :: _ =>
    some ([';'], l.dropWhile (fun c => decide (c = ';')), ';')
  | _ => none

/-- Step for `\|\|` → `or` (global). -/
def tryOrOr (_prev : Option Char) (l : Str) : Option (Str × Str × Char) :=
  if (str ("||")).isPrefixOf l then some (str ("or"), l.drop 2, '|') else none

/-- Step for `&&` → `and` (global). -/
def tryAndAnd (_prev : Option Char) (l : Str) : Option (Str × Str × Char) :=
  if (str ("&&")).isPrefixOf l then some (str ("and"), l.drop 2, '&') else none

/-- Warning text announcing mixed languages. -/
def mixedMsg (langs : List Str) : Str :=
  str ("Mixed languages detected: ") ++
    (List.intercalate (str (", ")) langs) ++ str (". Normalizing code...")

/-- Result of `normalizeCode`. -/
structure NormalizeResult where
  normalized : Str
  warnings : List Str
  deriving Repr, DecidableEq

/-- Embeds `normalizeCode`: preprocessing, mixed-language advisory, then the six
auto-correction passes in source order. -/
def normalizeCode (code : Str) : NormalizeResult :=
  let pre := preprocessCode code
  let mixed := detectMixedLanguages pre.1
  let warnings := pre.2 ++ (if mixed.detected then [mixedMsg mixed.languages] else [])
  let n1 := runScan tryElif pre.1
  let n2 := runScan tryColonFix n1
  let n3 := runScan tryBraceFix n2
  let n4 := joinNL ((splitNL n3).map quoteLine)
  let n5 := runScan trySemiRun n4
  let n6 := runScan tryOrOr n5
  let n7 := runScan tryAndAnd n6
  { normalized := n7, warnings := warnings }

/-- Language identifiers used by the rule engine. -/
def pyL : Str := str ("python")

def jsL : Str := str ("javascript")

def tsL : Str := str ("typescript")

def javaL : Str := str ("java")

def cppL : Str := str ("cpp")

def csL : Str := str ("csharp")

def goL : Str := str ("go")

def rustL : Str := str ("rust")

def phpL : Str := str ("php")

def rubyL : Str := str ("ruby")

/-- The registry of supported languages. -/
def SUPPORTED_LANGUAGES : List Str :=
  [pyL, jsL, tsL, javaL, cppL, goL, rustL, csL, phpL, rubyL]

/-- Maximal run of word characters. -/
def wordRun (l : Str) : Str := l.takeWhile isWordChar

/-- Suffix after the last colon of the text, if any colon occurs
(the end position of a greedy `.*` followed by `:`). -/
def afterLastColon : Str → Option Str
  | [] => none
  | c :: rest =>
    match afterLastColon rest with
    | some r => some r
    | none => if c = ':' then some rest else none

/-- Lazy search for the closing parenthesis of `(.*?)\)` followed by a tail
pattern: at each candidate `)` the tail is tried; on failure the lazy group
extends past that `)`.  Returns the captured group and the suffix after the
portion consumed by the tail. -/
def lazyParen (tail : Str → Option Str) : Str → Option (Str × Str)
  | [] => none
  | c :: rest =>
    if c = ')' then
      match tail rest with
      | some r => some ([], r)
      | none =>
        match lazyParen tail rest with
        | some (p, r) => some (c :: p, r)
        | none => none
    else
      match lazyParen tail rest with
      | some (p, r) => some (c :: p, r)
      | none => none

/-- Tail `\s*(?:->.*)?:` of the Python `def` pattern. -/
def pyDefTail (l : Str) : Option Str :=
  let r := l.dropWhile isJsWs
  if (str ("->")).isPrefixOf r then afterLastColon (r.drop 2)
  else
    match r with
    | ':' :: rr => some rr
    | _ => none

/-- Tail `\s*{` of the JavaScript `function` pattern. -/
def jsFuncTail (l : Str) : Option Str :=
  match l.dropWhile isJsWs with
  | c :: rr => if c = obrace then some rr else none
  | [] => none

/-- Tail `\s*:` of the Python `class` pattern. -/
def classTail (l : Str) : Option Str :=
  match l.dropWhile isJsWs with
  | ':' :: rr => some rr
  | _ => none

/-- Match `^(\s*)def\s+(\w+)\s*\((.*?)\)\s*(?:->.*)?:` against a line,
returning indent, name, parameter text and the suffix after the match. -/
def pyDefMatch (line : Str) : Option (Str × Str × Str × Str) :=
  let indent := line.takeWhile isJsWs
  let r1 := line.dropWhile isJsWs
  if (str ("def")).isPrefixOf r1 then
    let r2 := r1.drop 3
    let w1 := r2.takeWhile isJsWs
    if w1 = [] then none
    else
      let r3 := r2.dropWhile isJsWs
      let name := wordRun r3
      if name = [] then none
      else
        match (r3.drop name.length).dropWhile isJsWs with
        | '(' :: r6 =>
          match lazyParen pyDefTail r6 with
          | some (params, rest) => some (indent, name, params, rest)
          | none => none
        | _ => none
  else none

/-- Match `^(\s*)(?:async\s+)?function\s+(\w+)\s*\((.*?)\)\s*{`. -/
def jsFuncMatch (line : Str) : Option (Str × Str × Str × Str) :=
  let indent := line.takeWhile isJsWs
  let r1 := line.dropWhile isJsWs
  let r1' :=
    if (str ("async")).isPrefixOf r1 &&
       (match r1.drop 5 with | c :: _ => isJsWs c | [] => false)
    then (r1.drop 5).dropWhile isJsWs else r1
  if (str ("function")).isPrefixOf r1' then
    let r2 := r1'.drop 8
    if (r2.takeWhile isJsWs) = [] then none
    else
      let r3 := r2.dropWhile isJsWs
      let name := wordRun r3
      if name = [] then none
      else
        match (r3.drop name.length).dropWhile isJsWs with
        | '(' :: r6 =>
          match lazyParen jsFuncTail r6 with
          | some (params, rest) => some (indent, name, params, rest)
          | none => none
        | _ => none
  else none

/-- Match `^(\s*)class\s+(\w+)(?:\((.*?)\))?\s*:`. -/
def pyClassMatch (line : Str) : Option (Str × Str × Str) :=
  let indent := line.takeWhile isJsWs
  let r1 := line.dropWhile isJsWs
  if (str ("class")).isPrefixOf r1 then
    let r2 := r1.drop 5
    if (r2.takeWhile isJsWs) = [] then none
    else
      let r3 := r2.dropWhile isJsWs
      let name := wordRun r3
      if name = [] then none
      else
        match r3.drop name.length with
        | '(' :: r5 =>
          match lazyParen classTail r5 with
          | some (_base, rest) => some (indent, name, rest)
          | none => none
        | r4 =>
          match classTail r4 with
          | some rest => some (indent, name, rest)
          | none => none
  else none

/-- Embeds `transformFunctionDef`: function-header rewriting for Python and
JavaScript/TypeScript sources. -/
def transformFunctionDef (line source target : Str) (w : List Str) :
    Str × List Str :=
  if source = pyL then
    match pyDefMatch line with
    | some (indent, name, params, rest) =>
      let repl :=
        if target = jsL || target = tsL then
          indent ++ str ("function ") ++ name ++ [ '(' ] ++ params ++ str (") ") ++ [obrace]
        else if target = javaL then
          indent ++ str ("public static Object ") ++ name ++ [ '(' ] ++ params ++ str (") ") ++ [obrace]
        else if target = cppL then
          indent ++ str ("void ") ++ name ++ [ '(' ] ++ params ++ str (") ") ++ [obrace]
        else if target = csL then
          indent ++ str ("public static object ") ++ name ++ [ '(' ] ++ params ++ str (") ") ++ [obrace]
        else if target = goL then
          indent ++ str ("func ") ++ name ++ [ '(' ] ++ params ++ str (") ") ++ [obrace]
        else if target = rustL then
          indent ++ str ("fn ") ++ name ++ [ '(' ] ++ params ++ str (") ") ++ [obrace]
        else if target = phpL then
          indent ++ str ("function ") ++ name ++ [ '(' ] ++ params ++ str (") ") ++ [obrace]
        else if target = rubyL then
          indent ++ str ("def ") ++ name ++ [ '(' ] ++ params ++ [ ')' ]
        else line
      (repl ++ rest, w)
    | none => (line, w)
  else if source = jsL || source = tsL then
    match jsFuncMatch line with
    | some (indent, name, params, rest) =>
      let repl :=
        if target = pyL then
          indent ++ str ("def ") ++ name ++ [ '(' ] ++ params ++ str ("):")
        else if target = javaL then
          indent ++ str ("public static Object ") ++ name ++ [ '(' ] ++ params ++ str (") ") ++ [obrace]
        else if target = cppL then
          indent ++ str ("void ") ++ name ++ [ '(' ] ++ params ++ str (") ") ++ [obrace]
        else if target = csL then
          indent ++ str ("public static object ") ++ name ++ [ '(' ] ++ params ++ str (") ") ++ [obrace]
        else if target = goL then
          indent ++ str ("func ") ++ name ++ [ '(' ] ++ params ++ str (") ") ++ [obrace]
        else if target = rustL then
          indent ++ str ("fn ") ++ name ++ [ '(' ] ++ params ++ str (") ") ++ [obrace]
        else if target = phpL then
          indent ++ str ("function ") ++ name ++ [ '(' ] ++ params ++ str (") ") ++ [obrace]
        else if target = rubyL then
          indent ++ str ("def ") ++ name ++ [ '(' ] ++ params ++ [ ')' ]
        else line
      (repl ++ rest, w)
    | none => (line, w)
  else (line, w)

/-- Warning attached when a Python class is rewritten to a Go struct. -/
def goClassMsg : Str := str ("Go does not have classes. Converting to struct.")

/-- Embeds `transformClassDef`: class-header rewriting for Python sources.  The Go
branch attaches the struct-substitution warning; the Rust branch does not. -/
def transformClassDef (line source target : Str) (w : List Str) :
    Str × List Str :=
  if source = pyL then
    match pyClassMatch line with
    | some (indent, name, rest) =>
      if target = jsL || target = tsL then
        (indent ++ str ("class ") ++ name ++ [ ' ', obrace ] ++ rest, w)
      else if target = javaL then
        (indent ++ str ("public class ") ++ name ++ [ ' ', obrace ] ++ rest, w)
      else if target = cppL then
        (indent ++ str ("class ") ++ name ++ [ ' ', obrace ] ++ rest, w)
      else if target = csL then
        (indent ++ str ("public class ") ++ name ++ [ ' ', obrace ] ++ rest, w)
      else if target = goL then
        (indent ++ str ("type ") ++ name ++ str (" struct ") ++ [obrace] ++ rest,
         w ++ [goClassMsg])
      else if target = rustL then
        (indent ++ str ("struct ") ++ name ++ [ ' ', obrace ] ++ rest, w)
      else if target = phpL then
        (indent ++ str ("class ") ++ name ++ [ ' ', obrace ] ++ rest, w)
      else if target = rubyL then
        (indent ++ str ("class ") ++ name ++ rest, w)
      else (line ++ rest, w)
    | none => (line, w)
  else (line, w)

/-- Character class `[\w\s,.*]` of the import pattern. -/
def isImportNameChar (c : Char) : Bool :=
  isWordChar c || isJsWs c || c = ',' || c = '.' || c = '*'

/-- Match `^(\s*)(?:from\s+(\S+)\s+)?import\s+([\w\s,.*]+)`, returning
indent, optional module, imported names and the suffix after the match. -/
def importMatch (line : Str) : Option (Str × Option Str × Str × Str) :=
  let indent := line.takeWhile isJsWs
  let r1 := line.dropWhile isJsWs
  let fromPart : Option (Str × Str) :=
    if (str ("from")).isPrefixOf r1 then
      let rf := r1.drop 4
      if (rf.takeWhile isJsWs) = [] then none
      else
        let rm := rf.dropWhile isJsWs
        let m := rm.takeWhile (fun c => decide (isJsWs c = false))
        if m = [] then none
        else
          let r2 := rm.drop m.length
          if (r2.takeWhile isJsWs) = [] then none
          else
            let r3 := r2.dropWhile isJsWs
            if (str ("import")).isPrefixOf r3 then some (m, r3) else none
    else none
  let step : Option (Option Str × Str) :=
    match fromPart with
    | some (m, rI) => some (some m, rI)
    | none => if (str ("import")).isPrefixOf r1 then some (none, r1) else none
  match step with
  | none => none
  | some (module?, rI) =>
    let r4 := rI.drop 6
    let wRun := r4.takeWhile isJsWs
    if wRun = [] then none
    else
      let names0 := (r4.dropWhile isJsWs).takeWhile isImportNameChar
      if names0 ≠ [] then
        some (indent, module?, names0,
          (r4.dropWhile isJsWs).drop names0.length)
      else if 2 ≤ wRun.length then
        some (indent, module?, [lastCharD wRun ' '], r4.drop wRun.length)
      else none

/-- Embeds `transformImportStatement`: Python import rewriting, guarded by an
`includes('import ')` test. -/
def transformImportStatement (line source target : Str) (w : List Str) :
    Str × List Str :=
  if source = pyL && containsSub (str ("import ")) line then
    match importMatch line with
    | some (indent, module?, names, rest) =>
      let repl :=
        if target = jsL || target = tsL then
          indent ++ str ("import ") ++ names ++ str (" from ") ++ [squote] ++
            (module?.getD (str ("module"))) ++ [squote, ';']
        else if target = javaL then
          indent ++ str ("import ") ++ (module?.getD (str ("undefined"))) ++ str (".*;")
        else if target = cppL then
          indent ++ str ("#include \"") ++ (module?.getD (str ("module.h"))) ++ str ("\"")
        else if target = goL then
          indent ++ str ("import \"") ++ (module?.getD (str ("package"))) ++ str ("\"")
        else if target = csL then
          indent ++ str ("using ") ++ (module?.getD (str ("Namespace"))) ++ str (";")
        else if target = phpL then
          indent ++ str ("require(") ++ [squote] ++ (module?.getD (str ("module"))) ++
            [squote] ++ str (");")
        else if target = rubyL then
          indent ++ str ("require ") ++ [squote] ++ (module?.getD (str ("module"))) ++ [squote]
        else line
      (repl ++ rest, w)
    | none => (line, w)
  else (line, w)

/-- Does a suffix fully match `\)?\s*:?` (the tail of the `if` pattern)? -/
def condTailOK (t : Str) : Bool :=
  let t1 := match t with
    | ')' :: r => r
    | _ => t
  match t1.dropWhile isJsWs with
  | [] => true
  | [':'] => true
  | _ => false

/-- Shortest prefix whose remaining suffix passes the test (the lazy `.*?`
group); total because the test accepts the empty suffix for our tails. -/
def lazySplit (test : Str → Bool) : Str → Str
  | [] => []
  | c :: rest => if test (c :: rest) then [] else c :: lazySplit test rest

/-- Model of `condition.replace(/:\s*$/, '')`: strip the first colon that is
followed only by whitespace up to the end, together with that whitespace. -/
def stripColonEnd : Str → Str
  | [] => []
  | c :: rest =>
    if c = ':' && rest.all isJsWs then [] else c :: stripColonEnd rest

/-- Match `^(\s*)if\s+\(?(.*?)\)?\s*:?$`, returning indent and the raw
condition group (the match always spans the whole line when it succeeds). -/
def condMatch (line : Str) : Option (Str × Str) :=
  let indent := line.takeWhile isJsWs
  let r1 := line.dropWhile isJsWs
  if (str ("if")).isPrefixOf r1 then
    let r2 := r1.drop 2
    if (r2.takeWhile isJsWs) = [] then none
    else
      let r3 := r2.dropWhile isJsWs
      let r4 := match r3 with
        | '(' :: t => t
        | _ => r3
      some (indent, lazySplit condTailOK r4)
  else none

/-- Embeds `transformConditionals`: the single `if` rule of the enhanced engine
(there is no `elif`/`else` rule in this version). -/
def transformConditionals (line _source target : Str) (w : List Str) :
    Str × List Str :=
  match condMatch line with
  | some (indent, condition) =>
    let cleanCond := trim (stripColonEnd condition)
    if target = pyL then
      (indent ++ str ("if ") ++ cleanCond ++ [':'], w)
    else if target = jsL || target = tsL || target = javaL || target = cppL ||
            target = csL then
      (indent ++ str ("if (") ++ cleanCond ++ str (") ") ++ [obrace], w)
    else if target = goL then
      (indent ++ str ("if ") ++ cleanCond ++ [ ' ', obrace ], w)
    else (line, w)
  | none => (line, w)

/-- Character class `[\w.]` of the loop-iterable group. -/
def isIterChar (c : Char) : Bool := isWordChar c || c = '.'

/-- Match `^(\s*)for\s+(\w+)\s+in\s+([\w.]+)\s*:`, returning indent,
variable, iterable and the suffix after the match. -/
def loopMatch (line : Str) : Option (Str × Str × Str × Str) :=
  let indent := line.takeWhile isJsWs
  let r1 := line.dropWhile isJsWs
  if (str ("for")).isPrefixOf r1 then
    let r2 := r1.drop 3
    if (r2.takeWhile isJsWs) = [] then none
    else
      let r3 := r2.dropWhile isJsWs
      let v := wordRun r3
      if v = [] then none
      else
        let r4 := r3.drop v.length
        if (r4.takeWhile isJsWs) = [] then none
        else
          let r5 := r4.dropWhile isJsWs
          if (str ("in")).isPrefixOf r5 then
            let r6 := r5.drop 2
            if (r6.takeWhile isJsWs) = [] then none
            else
              let r7 := r6.dropWhile isJsWs
              let iter := r7.takeWhile isIterChar
              if iter = [] then none
              else
                match (r7.drop iter.length).dropWhile isJsWs with
                | ':' :: rest => some (indent, v, iter, rest)
                | _ => none
          else none
  else none

/-- Embeds `transformLoops`: Python `for … in …:` headers. -/
def transformLoops (line source target : Str) (w : List Str) :
    Str × List Str :=
  if source = pyL then
    match loopMatch line with
    | some (indent, v, iter, rest) =>
      let repl :=
        if target = jsL then
          indent ++ str ("for (let ") ++ v ++ str (" of ") ++ iter ++ str (") ") ++ [obrace]
        else if target = tsL then
          indent ++ str ("for (const ") ++ v ++ str (" of ") ++ iter ++ str (") ") ++ [obrace]
        else if target = javaL then
          indent ++ str ("for (var ") ++ v ++ str (" : ") ++ iter ++ str (") ") ++ [obrace]
        else if target = cppL then
          indent ++ str ("for (auto ") ++ v ++ str (" : ") ++ iter ++ str (") ") ++ [obrace]
        else if target = goL then
          indent ++ str ("for ") ++ v ++ str (" := range ") ++ iter ++ [ ' ', obrace ]
        else line.take (line.length - rest.length)
      (repl ++ rest, w)
    | none => (line, w)
  else (line, w)

/-- Lazy search for the `(.*?)\)(?=;|$)` group of the print patterns:
the first closing parenthesis followed by `;` or the end of the line. -/
def lazyParenLook : Str → Option (Str × Str)
  | [] => none
  | c :: rest =>
    if c = ')' && (match rest with
      | [] => true
      | d :: _ => d = ';') then some ([], rest)
    else
      match lazyParenLook rest with
      | some (p, r) => some (c :: p, r)
      | none => none

/-- Target-specific replacement for a Python `print(args)` call; the
default branch reproduces the matched text. -/
def printRepl (target consumed args : Str) : Str :=
  if target = jsL || target = tsL then str ("console.log(") ++ args ++ [ ')' ]
  else if target = javaL then str ("System.out.println(") ++ args ++ [ ')' ]
  else if target = cppL then str ("std::cout << ") ++ args ++ str (" << std::endl;")
  else if target = goL then str ("fmt.Println(") ++ args ++ [ ')' ]
  else if target = csL then str ("Console.WriteLine(") ++ args ++ str (");")
  else if target = phpL then str ("echo ") ++ args ++ [ ';' ]
  else if target = rubyL then str ("puts ") ++ args
  else consumed

/-- Scanner step for `\bprint\s*\((.*?)\)(?=;|$)` (global). -/
def tryPyPrint (target : Str) (prev : Option Char) (l : Str) :
    Option (Str × Str × Char) :=
  if prevIsWord prev then none
  else if (str ("print")).isPrefixOf l then
    let r := l.drop 5
    let wRun := r.takeWhile isJsWs
    match r.dropWhile isJsWs with
    | '(' :: r3 =>
      match lazyParenLook r3 with
      | some (args, rest) =>
        let consumed := str ("print") ++ wRun ++ [ '(' ] ++ args ++ [ ')' ]
        some (printRepl target consumed args, rest, ')')
      | none => none
    | _ => none
  else none

/-- Target-specific replacement for a `console.log(args)` call. -/
def consoleRepl (target consumed args : Str) : Str :=
  if target = pyL then str ("print(") ++ args ++ [ ')' ]
  else if target = javaL then str ("System.out.println(") ++ args ++ [ ')' ]
  else if target = cppL then str ("std::cout << ") ++ args ++ str (" << std::endl;")
  else if target = goL then str ("fmt.Println(") ++ args ++ [ ')' ]
  else if target = csL then str ("Console.WriteLine(") ++ args ++ str (");")
  else if target = phpL then str ("echo ") ++ args ++ [ ';' ]
  else if target = rubyL then str ("puts ") ++ args
  else consumed

/-- Scanner step for `\bconsole\.log\s*\((.*?)\)(?=;|$)` (global). -/
def tryConsoleLog (target : Str) (prev : Option Char) (l : Str) :
    Option (Str × Str × Char) :=
  if prevIsWord prev then none
  else if (str ("console.log")).isPrefixOf l then
    let r := l.drop 11
    let wRun := r.takeWhile isJsWs
    match r.dropWhile isJsWs with
    | '(' :: r3 =>
      match lazyParenLook r3 with
      | some (args, rest) =>
        let consumed := str ("console.log") ++ wRun ++ [ '(' ] ++ args ++ [ ')' ]
        some (consoleRepl target consumed args, rest, ')')
      | none => none
    | _ => none
  else none

/-- Target-specific replacement for a `System.out.println(args)` call. -/
def printlnRepl (target consumed args : Str) : Str :=
  if target = pyL then str ("print(") ++ args ++ [ ')' ]
  else if target = jsL || target = tsL then str ("console.log(") ++ args ++ [ ')' ]
  else if target = cppL then str ("std::cout << ") ++ args ++ str (" << std::endl;")
  else if target = goL then str ("fmt.Println(") ++ args ++ [ ')' ]
  else if target = csL then str ("Console.WriteLine(") ++ args ++ str (");")
  else if target = phpL then str ("echo ") ++ args ++ [ ';' ]
  else if target = rubyL then str ("puts ") ++ args
  else consumed

/-- Scanner step for `System\.out\.println\s*\((.*?)\)(?=;|$)` (global). -/
def tryPrintln (target : Str) (_prev : Option Char) (l : Str) :
    Option (Str × Str × Char) :=
  if (str ("System.out.println")).isPrefixOf l then
    let r := l.drop 18
    let wRun := r.takeWhile isJsWs
    match r.dropWhile isJsWs with
    | '(' :: r3 =>
      match lazyParenLook r3 with
      | some (args, rest) =>
        let consumed := str ("System.out.println") ++ wRun ++ [ '(' ] ++ args ++ [ ')' ]
        some (printlnRepl target consumed args, rest, ')')
      | none => none
    | _ => none
  else none

/-- Embeds `transformPrintStatement`: output-call rewriting for Python,
JavaScript/TypeScript and Java sources, each guarded by `includes`. -/
def transformPrintStatement (line source target : Str) (w : List Str) :
    Str × List Str :=
  if source = pyL && containsSub (str ("print")) line then
    (runScan (tryPyPrint target) line, w)
  else if (source = jsL || source = tsL) &&
      containsSub (str ("console.log")) line then
    (runScan (tryConsoleLog target) line, w)
  else if source = javaL && containsSub (str ("System.out.println")) line then
    (runScan (tryPrintln target) line, w)
  else (line, w)

/-- Match `^(\s*)(\w+)\s*=\s*(.+)$`, returning indent, name and value. -/
def varMatch (line : Str) : Option (Str × Str × Str) :=
  let indent := line.takeWhile isJsWs
  let r1 := line.dropWhile isJsWs
  let name := wordRun r1
  if name = [] then none
  else
    match (r1.drop name.length).dropWhile isJsWs with
    | '=' :: r4 =>
      let wv := r4.takeWhile isJsWs
      let v := r4.dropWhile isJsWs
      if v ≠ [] then some (indent, name, v)
      else if wv ≠ [] then some (indent, name, r4.drop (wv.length - 1))
      else none
    | _ => none

/-- Embeds `transformVariableDeclaration`: bare-assignment rewriting (applied for
every source language in the enhanced engine). -/
def transformVariableDeclaration (line _source target : Str) (w : List Str) :
    Str × List Str :=
  match varMatch line with
  | some (indent, name, value) =>
    if target = pyL then
      (indent ++ name ++ str (" = ") ++ value, w)
    else if target = jsL || target = tsL || target = javaL || target = cppL ||
            target = csL || target = goL || target = rustL || target = phpL then
      (indent ++ str ("const ") ++ name ++ str (" = ") ++ value ++
        (if target = jsL || target = tsL || target = javaL || target = csL
         then [';'] else []), w)
    else (line, w)
  | none => (line, w)

/-- Scanner step for a whole-word global replacement `\bword\b`. -/
def tryWordRepl (wrd repl : Str) (prev : Option Char) (l : Str) :
    Option (Str × Str × Char) :=
  if prevIsWord prev then none
  else if wrd.isPrefixOf l &&
      (match l.drop wrd.length with
        | [] => true
        | c :: _ => isWordChar c = false) then
    some (repl, l.drop wrd.length, lastCharD wrd ' ')
  else none

/-- Global whole-word replacement. -/
def replaceWord (wrd repl l : Str) : Str := runScan (tryWordRepl wrd repl) l

/-- Embeds `transformBooleanConstants`: Python literals to C-family spellings. -/
def transformBooleanConstants (line source _target : Str) (w : List Str) :
    Str × List Str :=
  if source = pyL then
    (replaceWord (str ("None")) (str ("null"))
      (replaceWord (str ("False")) (str ("false"))
        (replaceWord (str ("True")) (str ("true")) line)), w)
  else (line, w)

/-- Embeds `transformOperators`: Python word operators to symbolic form. -/
def transformOperators (line source target : Str) (w : List Str) :
    Str × List Str :=
  if source = pyL && target ≠ pyL then
    (replaceWord (str ("not")) (str ("!"))
      (replaceWord (str ("or")) (str ("||"))
        (replaceWord (str ("and")) (str ("&&")) line)), w)
  else (line, w)

/-- Embeds `transformStatementEndings`: append a semicolon for semicolon targets
when translating from Python and the line does not already end one of the
excluded ways. -/
def transformStatementEndings (line source target : Str) (w : List Str) :
    Str × List Str :=
  let needsSemicolon := target = jsL || target = tsL || target = javaL ||
    target = cppL || target = csL
  let t := trim line
  if needsSemicolon && source = pyL && ¬ endsWith [';'] t &&
     ¬ endsWith [obrace] t && ¬ endsWith [':'] t then
    if t ≠ [] && ¬ startsWith (str ("//")) t && ¬ startsWith (str ("#")) t then
      (trimEnd line ++ [';'], w)
    else (line, w)
  else (line, w)

/-- Per-line change classification. -/
inductive ChangeType where
  | added
  | removed
  | changed
  | warning
  | unchanged
  deriving Repr, DecidableEq

/-- One input line's journey through the engine. -/
structure LineTransformation where
  original : Str
  transformed : Str
  warnings : List Str
  lineNumber : Nat
  changeType : ChangeType
  deriving Repr, DecidableEq

/-- Embeds `transformLine`: skip empty and comment lines, otherwise apply the ten
transformation functions in source order, collecting warnings. -/
def transformLine (line source target : Str) (lineNumber : Nat) :
    LineTransformation :=
  let content := trim line
  if content = [] || startsWith (str ("//")) content ||
     startsWith (str ("#")) content || startsWith (str ("/*")) content then
    { original := line, transformed := line, warnings := [],
      lineNumber := lineNumber, changeType := ChangeType.unchanged }
  else
    let s1 := transformFunctionDef line source target []
    let s2 := transformClassDef s1.1 source target s1.2
    let s3 := transformImportStatement s2.1 source target s2.2
    let s4 := transformPrintStatement s3.1 source target s3.2
    let s5 := transformConditionals s4.1 source target s4.2
    let s6 := transformLoops s5.1 source target s5.2
    let s7 := transformVariableDeclaration s6.1 source target s6.2
    let s8 := transformBooleanConstants s7.1 source target s7.2
    let s9 := transformOperators s8.1 source target s8.2
    let s10 := transformStatementEndings s9.1 source target s9.2
    { original := line, transformed := s10.1, warnings := s10.2,
      lineNumber := lineNumber,
      changeType :=
        if s10.2 ≠ [] then ChangeType.warning
        else if s10.1 ≠ line then ChangeType.changed
        else ChangeType.unchanged }

/-- Targets that use brace delimiters in the post-processor. -/
def braceTargets : List Str := [jsL, tsL, javaL, cppL, csL, goL, rustL]

/-- Remove up to `n` closer-only lines, scanning a reversed line list
(the source iterates from the last line upwards, splicing out lines whose
trimmed content is exactly a closing brace). -/
def remGo : Nat → List Str → List Str
  | _, [] => []
  | 0, ls => ls
  | n + 1, l :: ls =>
    if trim l = [cbrace] then remGo n ls else l :: remGo (n + 1) ls

/-- Brace-balance reconciliation: append missing closers at the end, or
remove excess closer-only lines from the end. -/
def braceFix (p : Str) : Str :=
  let opens := countChar obrace p
  let closes := countChar cbrace p
  if closes < opens then p ++ '\n' :: List.replicate (opens - closes) cbrace
  else if opens < closes then
    joinNL ((remGo (closes - opens) (splitNL p).reverse).reverse)
  else p

/-- Scanner step for `\n\s*{` → ` {` (global). -/
def tryNLBrace (_prev : Option Char) (l : Str) : Option (Str × Str × Char) :=
  match l with
  | '\n' :: rest =>
    match rest.dropWhile isJsWs with
    | c :: tail => if c = obrace then some ([ ' ', obrace ], tail, obrace) else none
    | [] => none
  | _ => none

/-- Remove one trailing semicolon from a line (`;$` with the `m` flag). -/
def dropLastSemi (l : Str) : Str :=
  match l.reverse with
  | ';' :: r => r.reverse
  | _ => l

/-- Per-line `;$` removal over a whole text. -/
def stripSemis (p : Str) : Str := joinNL ((splitNL p).map dropLastSemi)

/-- Indentation re-leveling: closers (and `end`-starting lines) outdent
before emission, openers (and `:`/`do` lines) indent afterwards. -/
def indentGo : Nat → List Str → List Str
  | _, [] => []
  | lvl, l :: ls =>
    let t := trim l
    if t = [] then [] :: indentGo lvl ls
    else
      let lvl1 :=
        if startsWith [cbrace] t || startsWith (str ("end")) t then lvl - 1 else lvl
      let out := List.replicate (2 * lvl1) ' ' ++ t
      let lvl2 :=
        if endsWith [obrace] t || endsWith [':'] t || t = str ("do") then lvl1 + 1
        else lvl1
      out :: indentGo lvl2 ls

/-- Embeds `postProcessCode`: brace balancing and spacing for brace targets,
semicolon/brace cleanup for Python and Ruby, a synthesized package
declaration for Go, then the indentation-consistency pass. -/
def postProcessCode (code targetLang : Str) : Str :=
  let p1 :=
    if braceTargets.contains targetLang then
      runScan tryNLBrace (braceFix code)
    else code
  let p2 :=
    if targetLang = pyL then joinNL ((splitNL (stripSemis p1)).map (fun l => l))
    else p1
  let p3 :=
    if targetLang = rubyL then
      stripSemis (p2.filter (fun c => decide (c ≠ obrace) && decide (c ≠ cbrace)))
    else p2
  let p4 :=
    if targetLang = goL then
      if containsSub (str ("package ")) p3 then p3
      else str ("package main\n\n") ++ p3
    else p3
  joinNL (indentGo 0 (splitNL p4))

/-- Structural-summary node kinds. -/
inductive NodeType where
  | func
  | cls
  | ifC
  | forC
  | whileC
  | importC
  | varC
  | stmt
  | block
  | comment
  deriving Repr, DecidableEq

/-- Structural-summary tree node. -/
inductive ASTNode where
  | mk (type : NodeType) (name : Option Str) (content : Str)
       (lineStart lineEnd : Nat) (children : List ASTNode) (language : Str)
  deriving Repr

/-- Line index recorded in an AST node. -/
def ASTNode.lineStart : ASTNode → Nat
  | .mk _ _ _ s _ _ _ => s

/-- A node still open on the build stack, with accumulated children. -/
structure OpenNode where
  typ : NodeType
  content : Str
  idx : Nat
  children : List ASTNode

/-- Node type assigned to a trimmed line by `buildAST`. -/
def nodeTypeOf (content : Str) : NodeType :=
  if startsWith (str ("function")) content || startsWith (str ("def")) content ||
     startsWith (str ("fn")) content then NodeType.func
  else if startsWith (str ("class")) content then NodeType.cls
  else if startsWith (str ("if")) content then NodeType.ifC
  else if startsWith (str ("for")) content || startsWith (str ("while")) content then
    NodeType.forC
  else if startsWith (str ("import")) content then NodeType.importC
  else if startsWith (str ("//")) content || startsWith (str ("#")) content then
    NodeType.comment
  else NodeType.stmt

/-- Finalize an open node into an AST node. -/
def closeNode (language : Str) (o : OpenNode) : ASTNode :=
  ASTNode.mk o.typ none o.content o.idx o.idx o.children language

/-- Attach a finished node to the innermost open node, or to the roots. -/
def attachNode (stack : List OpenNode) (roots : List ASTNode) (n : ASTNode) :
    List OpenNode × List ASTNode :=
  match stack with
  | top :: rest => ({ top with children := top.children ++ [n] } :: rest, roots)
  | [] => ([], roots ++ [n])

/-- Pop open nodes whose own line index is before `idx - 1`; the fuel is
the stack length, which attaching never increases. -/
def popStaleF (language : Str) (idx : Nat) :
    Nat → List OpenNode → List ASTNode → List OpenNode × List ASTNode
  | 0, stack, roots => (stack, roots)
  | _ + 1, [], roots => ([], roots)
  | f + 1, top :: rest, roots =>
    if top.idx < idx - 1 then
      let (st, rt) := attachNode rest roots (closeNode language top)
      popStaleF language idx f st rt
    else (top :: rest, roots)

/-- Pop open nodes whose own line index is before `idx - 1`. -/
def popStale (language : Str) (idx : Nat) (stack : List OpenNode)
    (roots : List ASTNode) : List OpenNode × List ASTNode :=
  popStaleF language idx stack.length stack roots

/-- Whether a node opens a nesting scope in `buildAST`. -/
def opensScope (t : NodeType) (content : Str) : Bool :=
  t = NodeType.func || t = NodeType.cls || t = NodeType.ifC ||
  (t = NodeType.forC && (endsWith [obrace] content || endsWith [':'] content))

/-- Process the lines of `buildAST` in order. -/
def buildGo (language : Str) :
    Nat → List OpenNode → List ASTNode → List Str → List OpenNode × List ASTNode
  | _, stack, roots, [] => (stack, roots)
  | idx, stack, roots, line :: ls =>
    let content := trim line
    if content = [] then buildGo language (idx + 1) stack roots ls
    else
      let t := nodeTypeOf content
      let (st1, rt1) := popStale language idx stack roots
      if opensScope t content then
        buildGo language (idx + 1)
          ({ typ := t, content := content, idx := idx, children := [] } :: st1)
          rt1 ls
      else
        let n := ASTNode.mk t none content idx idx [] language
        let (st2, rt2) := attachNode st1 rt1 n
        buildGo language (idx + 1) st2 rt2 ls

/-- Close every node remaining on the stack at the end of the scan; the
fuel is the stack length. -/
def flushStackF (language : Str) :
    Nat → List OpenNode → List ASTNode → List ASTNode
  | 0, _, roots => roots
  | _ + 1, [], roots => roots
  | f + 1, top :: rest, roots =>
    let (st, rt) := attachNode rest roots (closeNode language top)
    flushStackF language f st rt

/-- Close every node remaining on the stack at the end of the scan. -/
def flushStack (language : Str) (stack : List OpenNode)
    (roots : List ASTNode) : List ASTNode :=
  flushStackF language stack.length stack roots

/-- Embeds `buildAST`: single top-to-bottom scan with indentation-free,
consecutive-line nesting heuristics. -/
def buildAST (code language : Str) : List ASTNode :=
  let (stack, roots) := buildGo language 0 [] [] (splitNL code)
  flushStack language stack roots

/-- Diff classification of `calculateLineChanges`. -/
inductive DiffType where
  | added
  | removed
  | unchanged
  | changed
  deriving Repr, DecidableEq

/-- One line of the index-aligned diff. -/
structure DiffEntry where
  type : DiffType
  source : Str
  translated : Str
  deriving Repr, DecidableEq

/-- One diff entry: the translated line is looked up by index and may be
absent (JavaScript `undefined`), which matters for the classification. -/
def mkDiffEntry (s : Str) (t? : Option (Str)) : DiffEntry :=
  { type :=
      if s = [] && decide (t?.getD [] ≠ []) then DiffType.added
      else if s ≠ [] && t?.getD [] = [] then DiffType.removed
      else if (match t? with
        | some t => decide (s = t)
        | none => false) then DiffType.unchanged
      else DiffType.changed
    source := s
    translated := t?.getD [] }

/-- Map over the source lines with positional lookup in the translated
lines (the `sourceLines.map((source, i) => …)` loop). -/
def calcGo : List Str → List Str → List DiffEntry
  | [], _ => []
  | s :: ss, ts => mkDiffEntry s ts.head? :: calcGo ss (ts.drop 1)

/-- Embeds `calculateLineChanges`: index-aligned line diff driven entirely by the
source text's lines. -/
def calculateLineChanges (sourceCode translatedCode : Str) : List DiffEntry :=
  calcGo (splitNL sourceCode) (splitNL translatedCode)

/-- Summary statistics of a transformation. -/
structure Statistics where
  functionsDetected : Nat
  classesDetected : Nat
  importsDetected : Nat
  linesTransformed : Nat
  mixedLanguageDetected : Bool
  normalizationApplied : Bool
  deriving Repr, DecidableEq

/-- The aggregate output of one transformation call. -/
structure TransformationResult where
  code : Str
  lines : List LineTransformation
  warnings : List Str
  errors : List Str
  statistics : Statistics
  ast : List ASTNode

/-- Indexed map modelling the line loop of the orchestrator. -/
def mapWithIndex (f : Nat → Str → LineTransformation) :
    Nat → List Str → List LineTransformation
  | _, [] => []
  | i, x :: xs => f i x :: mapWithIndex f (i + 1) xs

/-- Order-preserving deduplication (a JavaScript `Set` turned back into an
array). -/
def dedup (l : List Str) : List Str :=
  l.foldl (fun acc w => if acc.contains w then acc else acc ++ [w]) []

/-- Lowercased language identifier with the `|| 'javascript'` fallback. -/
def langOf (l : Str) : Str :=
  let low := lowerStr l
  if low = [] then jsL else low

/-- Embeds `transformCode`: the transformation orchestrator.  Identical (case
insensitively) source and target short-circuit to an identity result;
otherwise detection, normalization, the per-line engine, post-processing
and the structural summary are run in order. -/
def transformCode (code sourceLang targetLang : Str) : TransformationResult :=
  let source := langOf sourceLang
  let target := langOf targetLang
  if source = target then
    { code := code
      lines := mapWithIndex
        (fun i line =>
          { original := line, transformed := line, warnings := [],
            lineNumber := i, changeType := ChangeType.unchanged }) 0 (splitNL code)
      warnings := []
      errors := []
      statistics :=
        { functionsDetected := 0, classesDetected := 0, importsDetected := 0,
          linesTransformed := 0, mixedLanguageDetected := false,
          normalizationApplied := false }
      ast := buildAST code source }
  else
    let mixedDetection := detectMixedLanguages code
    let norm := normalizeCode code
    let normalizationApplied := mixedDetection.detected || decide (norm.warnings ≠ [])
    let lines := splitNL norm.normalized
    let transformedLines := mapWithIndex (fun i line => transformLine line source target i) 0 lines
    let statsFunc := (lines.filter (fun l =>
      containsSub (str ("def ")) l || containsSub (str ("function ")) l)).length
    let statsClass := (lines.filter (fun l => containsSub (str ("class ")) l)).length
    let statsImport := (lines.filter (fun l => containsSub (str ("import ")) l)).length
    let finalCode := joinNL (transformedLines.map (·.transformed))
    let cleanedCode := postProcessCode finalCode target
    { code := cleanedCode
      lines := transformedLines
      warnings := dedup (norm.warnings ++ transformedLines.flatMap (·.warnings))
      errors := []
      statistics :=
        { functionsDetected := statsFunc, classesDetected := statsClass,
          importsDetected := statsImport,
          linesTransformed := (transformedLines.filter
            (fun l => decide (l.changeType ≠ ChangeType.unchanged))).length,
          mixedLanguageDetected := mixedDetection.detected,
          normalizationApplied := normalizationApplied }
      ast := buildAST cleanedCode target }

section Lemmas

/-- Splitting on newlines always yields at least one piece. -/
theorem splitNL_length_pos (l : Str) : 1 ≤ (splitNL l).length := by
  induction l with
  | nil => simp [splitNL]
  | cons c rest ih =>
    simp only [splitNL]
    split
    · simp
    · cases h : splitNL rest with
      | nil => simp
      | cons a t => simp [h]

/-- The indexed line map preserves the number of lines. -/
theorem mapWithIndex_length (f : Nat → Str → LineTransformation) (i : Nat)
    (l : List Str) : (mapWithIndex f i l).length = l.length := by
  induction l generalizing i with
  | nil => rfl
  | cons x xs ih => simp [mapWithIndex, ih]

/-- The diff walk reproduces the source lines in order. -/
theorem calcGo_map_source (ss ts : List Str) :
    (calcGo ss ts).map DiffEntry.source = ss := by
  induction ss generalizing ts with
  | nil => rfl
  | cons s rest ih => simp [calcGo, mkDiffEntry, ih]

/-- A character not satisfying the predicate never occurs in a
`takeWhile` prefix. -/
theorem count_takeWhile_eq_zero {c : Char} {p : Char → Bool} (hc : p c = false)
    (l : Str) : (l.takeWhile p).count c = 0 :=
  List.count_eq_zero.2 fun hmem => by
    have := List.mem_takeWhile_imp hmem
    rw [hc] at this
    exact Bool.false_ne_true this

/-- Dropping a prefix of characters that all satisfy the predicate keeps
the count of a character that does not. -/
theorem count_dropWhile_eq {c : Char} {p : Char → Bool} (hc : p c = false)
    (l : Str) : (l.dropWhile p).count c = l.count c := by
  conv_rhs => rw [← List.takeWhile_append_dropWhile p l]
  rw [List.count_append, count_takeWhile_eq_zero hc, Nat.zero_add]

/-- Trimming only removes whitespace, so counts of non-whitespace
characters survive. -/
theorem count_trim {c : Char} (hc : isJsWs c = false) (l : Str) :
    (trim l).count c = l.count c := by
  unfold trim trimEnd trimStart
  rw [List.count_reverse, count_dropWhile_eq hc, List.count_reverse,
    count_dropWhile_eq hc]

/-- Counting a non-newline character through `joinNL` sums the per-line
counts. -/
theorem count_joinNL {c : Char} (hc : c ≠ '\n') (ls : List Str) :
    (joinNL ls).count c = (ls.map (List.count c)).sum := by
  induction ls with
  | nil => rfl
  | cons x xs ih =>
    cases xs with
    | nil => simp [joinNL]
    | cons y t =>
      have hne : ('\n' = c) = False := by simp [Ne.symm hc]
      simp [joinNL, List.count_append, List.count_cons, hne] at ih ⊢
      omega

/-- The per-line counts of a non-newline character across `splitNL` sum to
its count in the whole text. -/
theorem sum_splitNL {c : Char} (hc : c ≠ '\n') (l : Str) :
    ((splitNL l).map (List.count c)).sum = l.count c := by
  induction l with
  | nil => simp [splitNL]
  | cons a rest ih =>
    by_cases ha : a = '\n'
    · subst ha
      have hne : ('\n' = c) = False := by simp [Ne.symm hc]
      simp [splitNL, List.count_cons, hne, ih]
    · rw [splitNL]
      rw [if_neg ha]
      cases h : splitNL rest with
      | nil =>
        have := splitNL_length_pos rest
        rw [h] at this
        simp at this
      | cons b t =>
        rw [h] at ih
        simp [List.count_cons] at ih ⊢
        omega

/-- The indentation-consistency pass preserves per-line counts of
non-whitespace characters. -/
theorem indentGo_count {c : Char} (hc : isJsWs c = false) (ls : List Str)
    (lvl : Nat) :
    ((indentGo lvl ls).map (List.count c)).sum = (ls.map (List.count c)).sum := by
  induction ls generalizing lvl with
  | nil => rfl
  | cons l rest ih =>
    have hsp : (' ' = c) = False := by
      simp only [eq_iff_iff, iff_false]
      intro h
      rw [← h] at hc
      simp [isJsWs] at hc
    rw [indentGo]
    by_cases ht : trim l = []
    · rw [if_pos ht]
      have h0 : l.count c = 0 := by
        rw [← count_trim hc l, ht]
        rfl
      simp [ih, h0]
    · rw [if_neg ht]
      simp only [List.map_cons, List.sum_cons, ih, List.count_append,
        List.count_replicate, hsp, count_trim hc]
      simp [hsp]

/-- The pass `joinNL ∘ indentGo ∘ splitNL` preserves counts of characters that are
neither whitespace nor the newline itself. -/
theorem finalPass_count {c : Char} (hc : isJsWs c = false) (x : Str) :
    (joinNL (indentGo 0 (splitNL x))).count c = x.count c := by
  have hcn : c ≠ '\n' := by
    intro h
    rw [h] at hc
    simp [isJsWs] at hc
  rw [count_joinNL hcn, indentGo_count hc, sum_splitNL hcn]

/-- A scanner whose step preserves the count of a character preserves it
globally. -/
theorem scanP_count (c : Char)
    (try_ : Option Char → Str → Option (Str × Str × Char))
    (h : ∀ prev l out rest lc, try_ prev l = some (out, rest, lc) →
      out.count c + rest.count c = l.count c) :
    ∀ fuel prev l, (scanP try_ fuel prev l).count c = l.count c := by
  intro fuel
  induction fuel with
  | zero => intro prev l; rfl
  | succ n ih =>
    intro prev l
    cases l with
    | nil => rfl
    | cons a l' =>
      rw [scanP]
      cases htry : try_ prev (a :: l') with
      | none => simp [List.count_cons, ih]
      | some o =>
        obtain ⟨out, rest, lc⟩ := o
        rw [List.count_append, ih]
        exact h prev (a :: l') out rest lc htry

/-- The `\n\s*{` → ` {` step only deletes whitespace, preserving counts of
non-whitespace characters. -/
theorem tryNLBrace_count (c : Char) (hc : isJsWs c = false) :
    ∀ prev l out rest lc, tryNLBrace prev l = some (out, rest, lc) →
      out.count c + rest.count c = l.count c := by
  intro prev l out rest lc h
  unfold tryNLBrace at h
  split at h
  · rename_i r
    split at h
    · rename_i d tail hd
      split at h
      · rename_i hdo
        simp only [Option.some.injEq, Prod.mk.injEq] at h
        obtain ⟨h1, h2, _⟩ := h
        subst h1 h2
        have hr : r.count c = tail.count c + (if obrace = c then 1 else 0) := by
          conv_lhs => rw [← List.takeWhile_append_dropWhile isJsWs r]
          rw [hd, hdo]
          by_cases hoc : obrace = c <;>
            simp [List.count_append, count_takeWhile_eq_zero hc,
              List.count_cons, hoc]
        have hnl : ('\n' = c) = False := by
          simp only [eq_iff_iff, iff_false]
          intro hh
          rw [← hh] at hc
          simp [isJsWs] at hc
        have hsp : (' ' = c) = False := by
          simp only [eq_iff_iff, iff_false]
          intro hh
          rw [← hh] at hc
          simp [isJsWs] at hc
        by_cases hoc : obrace = c
        · simp [List.count_cons, hr, hnl, hsp, hoc]
          omega
        · simp [List.count_cons, hr, hnl, hsp, hoc]
      · exact absurd h (by simp)
    · exact absurd h (by simp)
  · exact absurd h (by simp)

/-- Brace-balance reconciliation balances any text with at least as many
openers as closers. -/
theorem braceFix_balanced (p : Str)
    (h : p.count cbrace ≤ p.count obrace) :
    (braceFix p).count obrace = (braceFix p).count cbrace := by
  have hob : (cbrace = obrace) = False := by decide
  have hbo : (obrace = cbrace) = False := by decide
  have hnl1 : ('\n' = obrace) = False := by decide
  have hnl2 : ('\n' = cbrace) = False := by decide
  rw [braceFix]
  by_cases h1 : countChar cbrace p < countChar obrace p
  · rw [if_pos h1]
    simp only [List.count_append, List.count_cons, List.count_replicate,
      countChar] at h1 ⊢
    simp [hob, hbo, hnl1, hnl2]
    unfold countChar at *
    omega
  · rw [if_neg h1]
    have h2 : ¬ countChar obrace p < countChar cbrace p := by
      unfold countChar at *
      omega
    rw [if_neg h2]
    unfold countChar at *
    omega

end Lemmas

/-- C1.  For every supported language L and every input text,
`transform(code, L, L)` (source and target compared case-insensitively)
returns the input text unchanged as the result's code, with an empty
warnings list and `statistics.linesTransformed` equal to zero. -/
theorem transform_identity (code L : Str) (_hL : L ∈ SUPPORTED_LANGUAGES) :
    (transformCode code L L).code = code ∧
    (transformCode code L L).warnings = [] ∧
    (transformCode code L L).statistics.linesTransformed = 0 := by
  unfold transformCode
  rw [if_pos rfl]
  exact ⟨rfl, rfl, rfl⟩

/-- Witness for C1 at a concrete supported language and input. -/
theorem transform_identity_witness :
    (str ("python")) ∈ SUPPORTED_LANGUAGES ∧
    (transformCode (str ("abc")) (str ("python")) (str ("python"))).code =
      str ("abc") ∧
    (transformCode (str ("abc")) (str ("python")) (str ("python"))).warnings = [] ∧
    (transformCode (str ("abc")) (str ("python"))
      (str ("python"))).statistics.linesTransformed = 0 := by
  refine ⟨by decide, ?_⟩
  exact transform_identity (str ("abc")) (str ("python")) (by decide)

/-- C2.  For the input `def greet(name):\n    print(name)` with source
Python and target JavaScript, transform produces exactly
`function greet(name) {\n  console.log(name);\n}`. -/
theorem transform_py_js_function_example :
    (transformCode (str ("def greet(name):\n    print(name)")) (str ("python"))
      (str ("javascript"))).code =
      str ("function greet(name) \x7b\n  console.log(name);\n\x7d") := by
  rfl

/-- C3 counterexample.  `normalizeCode` is not idempotent: on
`a ||\n{` the first run rewrites `||` to `or`, and the second run's
preprocessing then merges the two lines through the `(\w)\s+{` fix. -/
theorem normalize_not_idempotent_cex :
    (normalizeCode ((normalizeCode (str ("a ||\n\x7b"))).normalized)).normalized ≠
      (normalizeCode (str ("a ||\n\x7b"))).normalized := by
  decide

/-- C3 (amended).  Normalization is idempotent on already-clean input:
whenever `normalizeCode` leaves a text unchanged, running it twice equals
running it once. -/
theorem normalize_idempotent_on_clean (x : Str)
    (h : (normalizeCode x).normalized = x) :
    (normalizeCode ((normalizeCode x).normalized)).normalized =
      (normalizeCode x).normalized := by
  rw [h]
  exact h

/-- Witness for the amended C3 at a concrete clean input. -/
theorem normalize_idempotent_on_clean_witness :
    (normalizeCode (str ("x"))).normalized = str ("x") ∧
    (normalizeCode ((normalizeCode (str ("x"))).normalized)).normalized =
      (normalizeCode (str ("x"))).normalized :=
  ⟨by decide, normalize_idempotent_on_clean (str ("x")) (by decide)⟩

/-- C5 counterexample.  Rust lacks a class construct, yet transforming a
Python class line to Rust substitutes a struct with an empty warnings
list: the substitution is made silently. -/
theorem class_warning_cex :
    (transformCode (str ("class Foo:")) (str ("python")) (str ("rust"))).code =
      str ("struct Foo \x7b\n\x7d") ∧
    (transformCode (str ("class Foo:")) (str ("python"))
      (str ("rust"))).warnings = [] := by
  constructor
  · rfl
  · rfl

/-- C6 counterexample.  For the pair go → rust, for which no rule set
exists, the enhanced transform returns the text with no explanatory
comment prefix and leaves both the errors and warnings channels empty. -/
theorem unsupported_pair_cex :
    (transformCode (str ("x")) (str ("go")) (str ("rust"))).code = str ("x") ∧
    (transformCode (str ("x")) (str ("go")) (str ("rust"))).errors = [] ∧
    (transformCode (str ("x")) (str ("go")) (str ("rust"))).warnings = [] := by
  refine ⟨rfl, rfl, rfl⟩

/-- C6 (amended).  Whatever the language pair — including pairs with no
registered rules — `transform` never throws (it is total) and never
populates the errors channel; no unsupported-pair comment is prefixed. -/
theorem transform_errors_empty (code s t : Str) :
    (transformCode code s t).errors = [] := by
  by_cases h : langOf s = langOf t <;> simp [transformCode, h]

/-- C7.  For every input text and every pair of language identifiers
(registered or not), `transform` returns a well-formed result: it is a
total function, its line list carries at least one entry, and the
`linesTransformed` statistic never exceeds the number of line entries. -/
theorem transform_wellformed (code s t : Str) :
    1 ≤ (transformCode code s t).lines.length ∧
    (transformCode code s t).statistics.linesTransformed ≤
      (transformCode code s t).lines.length := by
  by_cases h : langOf s = langOf t
  · constructor
    · simpa [transformCode, h, mapWithIndex_length] using splitNL_length_pos code
    · simp [transformCode, h]
  · constructor
    · simpa [transformCode, h, mapWithIndex_length] using
        splitNL_length_pos (normalizeCode code).normalized
    · simpa [transformCode, h] using List.length_filter_le
        (fun l => decide (l.changeType ≠ ChangeType.unchanged))
        (mapWithIndex (fun i line => transformLine line (langOf s) (langOf t) i) 0
          (splitNL (normalizeCode code).normalized))

/-- C9 evaluation at the failing input.  The code does not produce a
two-branch if/else: normalization appends a stray brace to the `if`
header, the condition group absorbs it, and the `else` line is never
rewritten, yielding this malformed output. -/
theorem py_js_ifelse_eval :
    (transformCode
      (str ("if x > 5:\n    print(\"big\")\nelse:\n    print(\"small\")"))
      (str ("python")) (str ("javascript"))).code =
      str ("if (x > 5: \x7b) \x7b\n  console.log(\"big\");\n  else: \x7b\n    console.log(\"small\");\n  \x7d\x7d\x7d") := by
  rfl

/-- C10.  `calculateLineChanges` returns exactly one entry per line of the
before text, aligned by index; after-text lines beyond the before text's
last line are omitted entirely (in particular they are never reported as
added). -/
theorem calculateLineChanges_source_aligned (sourceCode translatedCode : Str) :
    (calculateLineChanges sourceCode translatedCode).map DiffEntry.source =
      splitNL sourceCode ∧
    (calculateLineChanges sourceCode translatedCode).length =
      (splitNL sourceCode).length := by
  have h := calcGo_map_source (splitNL sourceCode) (splitNL translatedCode)
  refine ⟨h, ?_⟩
  calc (calculateLineChanges sourceCode translatedCode).length
      = ((calcGo (splitNL sourceCode) (splitNL translatedCode)).map
          DiffEntry.source).length := by simp [calculateLineChanges]
    _ = (splitNL sourceCode).length := by rw [h]

/-- C4 counterexample.  JavaScript is a brace target, yet transforming the
single line `}` from Python appends a semicolon, the closer-removal loop
skips the line (its trimmed text is `};`, not `}`), and the returned code
has one closer and no opener. -/
theorem brace_balance_cex :
    (str ("javascript")) ∈ braceTargets ∧
    (transformCode (str ("\x7d")) (str ("python")) (str ("javascript"))).code =
      str ("\x7d;") ∧
    countChar obrace
        ((transformCode (str ("\x7d")) (str ("python")) (str ("javascript"))).code) ≠
      countChar cbrace
        ((transformCode (str ("\x7d")) (str ("python")) (str ("javascript"))).code) := by
  refine ⟨by decide, rfl, by decide⟩

/-- C4 (amended).  For brace-delimited targets the post-processed output
is exactly balanced whenever the rule-engine output entering the
post-processor has at least as many openers as closers; when closers are
in excess only closer-only lines are removed, so balance can fail there. -/
theorem postProcess_balanced (code target : Str)
    (hmem : target ∈ braceTargets)
    (hcount : countChar cbrace code ≤ countChar obrace code) :
    countChar obrace (postProcessCode code target) =
      countChar cbrace (postProcessCode code target) := by
  have hb : braceTargets.contains target = true := by simpa using hmem
  have hmem' := hmem
  simp only [braceTargets, List.mem_cons, List.not_mem_nil, or_false] at hmem'
  have hpy : ¬ target = pyL := by
    rcases hmem' with rfl | rfl | rfl | rfl | rfl | rfl | rfl <;> decide
  have hrb : ¬ target = rubyL := by
    rcases hmem' with rfl | rfl | rfl | rfl | rfl | rfl | rfl <;> decide
  have hcob : isJsWs obrace = false := by decide
  have hccb : isJsWs cbrace = false := by decide
  have hX : (runScan tryNLBrace (braceFix code)).count obrace =
      (runScan tryNLBrace (braceFix code)).count cbrace := by
    unfold runScan
    rw [scanP_count obrace tryNLBrace (tryNLBrace_count obrace hcob),
      scanP_count cbrace tryNLBrace (tryNLBrace_count cbrace hccb)]
    exact braceFix_balanced code hcount
  simp only [postProcessCode]
  rw [if_pos hb, if_neg hpy, if_neg hrb]
  unfold countChar
  rw [finalPass_count hcob, finalPass_count hccb]
  by_cases hgo : target = goL
  · rw [if_pos hgo]
    by_cases hpk : containsSub (str ("package "))
        (runScan tryNLBrace (braceFix code)) = true
    · rw [if_pos hpk]
      exact hX
    · rw [if_neg hpk]
      rw [List.count_append, List.count_append]
      have h1 : (str ("package main\n\n")).count obrace = 0 := by decide
      have h2 : (str ("package main\n\n")).count cbrace = 0 := by decide
      rw [h1, h2, Nat.zero_add, Nat.zero_add]
      exact hX
  · rw [if_neg hgo]
    exact hX

/-- Witness for the amended C4 at a concrete input with an excess
opener. -/
theorem postProcess_balanced_witness :
    (str ("javascript")) ∈ braceTargets ∧
    countChar cbrace (str ("\x7b")) ≤ countChar obrace (str ("\x7b")) ∧
    countChar obrace (postProcessCode (str ("\x7b")) (str ("javascript"))) =
      countChar cbrace (postProcessCode (str ("\x7b")) (str ("javascript"))) :=
  ⟨by decide, by decide,
    postProcess_balanced (str ("\x7b")) (str ("javascript")) (by decide) (by decide)⟩

/-- C5 (amended).  Whenever a Python class-definition line matches the
class rule and the target is Go, the struct substitution always attaches
the explicit warning; for Rust the same substitution is silent. -/
theorem classdef_go_warns (line : Str) (w : List Str)
    (h : (pyClassMatch line).isSome = true) :
    goClassMsg ∈ (transformClassDef line pyL goL w).2 := by
  cases hm : pyClassMatch line with
  | none => rw [hm] at h; exact absurd h (by simp)
  | some m =>
    obtain ⟨indent, name, rest⟩ := m
    have e1 : (decide (goL = jsL) || decide (goL = tsL)) = false := by decide
    have e2 : (goL = javaL) = False := eq_false (by decide)
    have e3 : (goL = cppL) = False := eq_false (by decide)
    have e4 : (goL = csL) = False := eq_false (by decide)
    simp [transformClassDef, hm, e1, e2, e3, e4]

/-- Witness for the amended C5 at the concrete class line. -/
theorem classdef_go_warns_witness :
    (pyClassMatch (str ("class Foo:"))).isSome = true ∧
    goClassMsg ∈ (transformClassDef (str ("class Foo:")) pyL goL []).2 :=
  ⟨by decide, classdef_go_warns (str ("class Foo:")) [] (by decide)⟩

/-- C8 counterexample.  Go and Rust are registered languages and this text
carries the fingerprint indicators of both (`package `/`func ` for Go,
`fn `/`let ` for Rust), yet the detector reports no mixed languages: it
only ever scores Python, JavaScript and Java. -/
theorem mixed_detection_cex :
    goL ∈ SUPPORTED_LANGUAGES ∧ rustL ∈ SUPPORTED_LANGUAGES ∧
    containsSub (str ("package "))
      (str ("package main\nfunc g()\nfn f()\nlet x = 1")) = true ∧
    containsSub (str ("func "))
      (str ("package main\nfunc g()\nfn f()\nlet x = 1")) = true ∧
    containsSub (str ("fn "))
      (str ("package main\nfunc g()\nfn f()\nlet x = 1")) = true ∧
    containsSub (str ("let "))
      (str ("package main\nfunc g()\nfn f()\nlet x = 1")) = true ∧
    (detectMixedLanguages
      (str ("package main\nfunc g()\nfn f()\nlet x = 1"))).detected = false := by
  decide

/-- C8 (amended).  The detector evaluates fingerprints for exactly three
languages — Python, JavaScript and Java — and reports `detected` exactly
when at least two of those three scores are nonzero. -/
theorem detect_mixed_three_languages (code : Str) :
    (detectMixedLanguages code).detected = true ↔
      ((0 < pyScore code ∧ 0 < jsScore code) ∨
       (0 < pyScore code ∧ 0 < javaScore code) ∨
       (0 < jsScore code ∧ 0 < javaScore code)) := by
  unfold detectMixedLanguages
  simp only [decide_eq_true_eq]
  by_cases hp : 0 < pyScore code <;> by_cases hj : 0 < jsScore code <;>
    by_cases ha : 0 < javaScore code <;>
      simp [List.filter, hp, hj, ha]

end CodeTranslator
